import Mathlib

/-
Verification of the sandbox_fs.c LD_PRELOAD filesystem-blocking library.

The C source is shallowly embedded: paths are lists of characters (the C
strings without their terminating NUL), the process environment and the
non-interposed helpers obtained through dlsym(RTLD_NEXT, ...) are an explicit
`Env` record of partial functions (`none` models a failing call or a failed
symbol lookup), and heap allocation during initialization is an explicit
`Alloc` oracle.  Buffer bounds (PATH_MAX) are modelled by the explicit length
checks the source performs; the stack buffers themselves are not modelled.
-/

namespace SandboxFS

/-- Paths are NUL-free C strings, embedded as lists of characters. -/
abbrev Path := List Char

def PATH_MAX : Nat := 4096

def MAX_BLOCKED_PATHS : Nat := 64

/-- Value of the AT_FDCWD sentinel on Linux. -/
def AT_FDCWD : Int := -100

/-- Value of the EACCES errno code on Linux. -/
def EACCES : Int := 13

def DEFAULT_BLOCKED_PATHS : Path := ("/app:/.apps_data").toList

/--
Process environment of the library: the current working directory as
returned by getcwd (none: getcwd fails), and the original (non-interposed)
helpers obtained via dlsym(RTLD_NEXT, ...).  An outer `none` models a failed
dlsym lookup; an inner `none` models the original call failing (returning
NULL resp. -1).
-/
structure Env where
  realpathSym : Option (Path → Option Path)
  readlinkSym : Option (Path → Option Path)
  canonicalizeSym : Option (Path → Option Path)
  cwd : Option Path

/-- Allocation oracle for init_blocked_paths: whether strdup of the whole
environment value succeeds, and whether the k-th per-token strdup succeeds. -/
structure Alloc where
  paths_copy : Bool
  token : Nat → Bool

/-- Global state established by init_blocked_paths. -/
structure Config where
  blocked_paths : List Path
  init_failed : Bool

/-- Right-trim: strip all trailing occurrences of c. -/
def rtrim (c : Char) (l : Path) : Path :=
  (l.reverse.dropWhile (· = c)).reverse

/--
Token trimming inside the init_blocked_paths loop (sandbox_fs.c lines 83-91):
skip leading spaces, then erase trailing spaces and then trailing slashes,
where both trailing loops are guarded by `end > token` and therefore never
erase the first character of the token.
-/
def trimToken (tok : Path) : Path :=
  match tok.dropWhile (· = ' ') with
  | [] => []
  | c :: rest => c :: rtrim '/' (rtrim ' ' rest)

/--
The strtok_r loop of init_blocked_paths (lines 80-101); `k` counts the
strdup calls made so far.  A token is stored only while fewer than
MAX_BLOCKED_PATHS entries are held, only if it is nonempty after trimming,
and only if its strdup succeeds; a failed strdup is silently skipped.
-/
def init_loop (tokAlloc : Nat → Bool) : List Path → List Path → Nat → List Path
  | [], acc, _ => acc
  | t :: ts, acc, k =>
    if acc.length < MAX_BLOCKED_PATHS then
      let tok := trimToken t
      if tok = [] then init_loop tokAlloc ts acc k
      else if tokAlloc k then init_loop tokAlloc ts (acc ++ [tok]) (k + 1)
      else init_loop tokAlloc ts acc (k + 1)
    else acc

/--
init_blocked_paths (lines 58-105).  `paths_env` is the value of
SANDBOX_BLOCKED_PATHS (none: variable unset, fall back to the default).
If duplicating the environment value fails, the fail-closed flag is set and
no prefix is stored; otherwise the value is split on ':' and each token
trimmed and stored.
-/
def init_blocked_paths (a : Alloc) (paths_env : Option Path) : Config :=
  let paths := paths_env.getD DEFAULT_BLOCKED_PATHS
  if a.paths_copy then
    { blocked_paths := init_loop a.token (paths.splitOn ':') [] 0
      init_failed := false }
  else
    { blocked_paths := [], init_failed := true }

/--
One step of the component walk of normalize_path (lines 151-163):
"." is dropped, ".." pops the last collected component (never above root),
other nonempty components are appended, empty tokens are dropped.
-/
def stepComponent (acc : List Path) (tok : Path) : List Path :=
  if tok = ['.'] then acc
  else if tok = ['.', '.'] then acc.dropLast
  else if tok = [] then acc
  else acc ++ [tok]

def components (toks : List Path) : List Path :=
  toks.foldl stepComponent []

/--
The rebuild loop of normalize_path (lines 166-174): components are appended
as "/component", failing when the result would reach `size` (the check
`strlen(resolved) + 1 + strlen(components[i]) >= resolved_size`).
-/
def rebuild (size : Nat) : List Path → Path → Option Path
  | [], acc => some acc
  | c :: cs, acc =>
    if size ≤ acc.length + 1 + c.length then none
    else rebuild size cs (acc ++ '/' :: c)

/--
normalize_path (lines 119-182): textual canonicalization.  A relative path
is first made absolute against getcwd (failure of getcwd, or overflow of the
PATH_MAX buffer, fails canonicalization); the absolute path is split on '/',
"." and ".." are resolved without filesystem access, and the result is
rejoined, with the empty result normalizing to "/".  The strdup of the
working copy is modelled as always succeeding.
-/
def normalize_path (env : Env) (path : Path) (resolved_size : Nat) : Option Path :=
  if resolved_size = 0 then none
  else
    let absOpt : Option Path :=
      if path.head? = some '/' then
        if PATH_MAX ≤ path.length then none else some path
      else
        match env.cwd with
        | none => none
        | some cwd =>
          if PATH_MAX ≤ cwd.length + 1 + path.length then none
          else some (cwd ++ '/' :: path)
    match absOpt with
    | none => none
    | some absolute =>
      let comps := components (absolute.splitOn '/')
      if comps = [] then some ['/']
      else rebuild resolved_size comps []

/--
The prefix match of sandbox_fs.c (e.g. lines 342-348): `blocked` matches
`normalized` iff it is a prefix of it and is followed there by the string
end or by '/'.
-/
def pathMatch (blocked normalized : Path) : Bool :=
  blocked.isPrefixOf normalized &&
    (match normalized.drop blocked.length with
     | [] => true
     | c :: _ => c == '/')

def anyBlocked (bl : List Path) (p : Path) : Bool :=
  bl.any fun b => pathMatch b p

/-- strrchr-based split: `splitLastSlash p = some (parent, filename)` when
`p = parent ++ '/' :: filename` with a slash-free `filename`. -/
def splitLastSlash : Path → Option (Path × Path)
  | [] => none
  | c :: cs =>
    match splitLastSlash cs with
    | some (par, fn) => some (c :: par, fn)
    | none => if c = '/' then some ([], cs) else none

/--
is_resolved_path_blocked (lines 199-303): symlink-aware check.  If the
original realpath cannot be obtained via dlsym, fall back (return
not-blocked).  Try realpath on the whole path; on failure, resolve the
parent directory (or, with no slash, the cwd) and re-append the final
component, blocking when the resolved result matches a forbidden prefix.
-/
def is_resolved_path_blocked (cfg : Config) (env : Env) (path : Path) : Bool :=
  match env.realpathSym with
  | none => false
  | some orig_realpath =>
    match orig_realpath path with
    | some resolved => anyBlocked cfg.blocked_paths resolved
    | none =>
      if PATH_MAX ≤ path.length then false
      else
        match splitLastSlash path with
        | none =>
          match env.cwd with
          | none => false
          | some cwd =>
            match orig_realpath cwd with
            | some resolved => anyBlocked cfg.blocked_paths resolved
            | none => false
        | some (parent, filename) =>
          let parent2 := if parent = [] then ['/'] else parent
          match orig_realpath parent2 with
          | some resolved =>
            if resolved.length + 1 + filename.length < PATH_MAX then
              anyBlocked cfg.blocked_paths (resolved ++ '/' :: filename)
            else false
          | none => false

/-- The candidate the oracle compares against the prefixes (lines 330-335):
the canonicalized path, or on canonicalization failure the raw path
truncated by the strncpy fallback. -/
def candidateOf (env : Env) (p : Path) : Path :=
  match normalize_path env p PATH_MAX with
  | some n => n
  | none => p.take (PATH_MAX - 1)

/--
is_path_blocked (lines 318-358): the admission oracle.  Fail-closed flag
first; null path or empty prefix list allow; then the textual check on the
canonicalized candidate, then the symlink-aware check.
-/
def is_path_blocked (cfg : Config) (env : Env) (path : Option Path) : Bool :=
  if cfg.init_failed then true
  else
    match path with
    | none => false
    | some p =>
      if cfg.blocked_paths = [] then false
      else
        let normalized := candidateOf env p
        if anyBlocked cfg.blocked_paths normalized then true
        else is_resolved_path_blocked cfg env normalized

/-- The /proc/self/fd/<fd> pseudo-filesystem entry for a descriptor. -/
def procFdPath (dirfd : Int) : Path :=
  ("/proc/self/fd/").toList ++ (toString dirfd).toList

/--
is_path_blocked_at (lines 370-416): descriptor-relative admission.  A null
path is allowed; an absolute path or AT_FDCWD reuses the plain oracle; else
the descriptor is resolved through its /proc/self/fd entry with the
original readlink, blocking when dlsym or the readlink fails or when the
concatenation overflows, and otherwise running the plain oracle on
"fd_path/path".
-/
def is_path_blocked_at (cfg : Config) (env : Env) (dirfd : Int) (path : Option Path) : Bool :=
  match path with
  | none => false
  | some p =>
    if p.head? = some '/' then is_path_blocked cfg env (some p)
    else if dirfd = AT_FDCWD then is_path_blocked cfg env (some p)
    else
      match env.readlinkSym with
      | none => true
      | some orig_readlink =>
        match orig_readlink (procFdPath dirfd) with
        | none => true
        | some fd_path =>
          if PATH_MAX ≤ fd_path.length + 1 + p.length then true
          else is_path_blocked cfg env (some (fd_path ++ '/' :: p))

/--
is_symlink_target_blocked (lines 793-835): an absolute target is checked
directly; a relative target is resolved against the directory containing
the link (the part of linkpath before its last slash, the root for a link
directly under "/", or the cwd for a linkpath with no slash), blocking
conservatively on overflow or when the cwd cannot be obtained.
-/
def is_symlink_target_blocked (cfg : Config) (env : Env) (target : Option Path) (linkpath : Path) : Bool :=
  match target with
  | none => false
  | some t =>
    if t.head? = some '/' then is_path_blocked cfg env (some t)
    else
      if PATH_MAX ≤ linkpath.length then true
      else
        let linkdirOpt : Option Path :=
          match splitLastSlash linkpath with
          | none => env.cwd
          | some (parent, _) => some (if parent = [] then ['/'] else parent)
        match linkdirOpt with
        | none => true
        | some linkdir =>
          if PATH_MAX ≤ linkdir.length + 1 + t.length then true
          else is_path_blocked cfg env (some (linkdir ++ '/' :: t))

/--
Outcome of one interposed hook call, for the inputs it was modelled on:
`deny errv ret` — the hook returns `ret` with errno set to `errv` without
invoking the original implementation (the filesystem is untouched);
`callOriginal` — the hook forwards to the original implementation and
returns its result; `denyAfterOriginal errv ret` — the hook invoked the
original implementation first and then suppressed its result, returning
`ret` with errno `errv`.
-/
inductive HookResult (α : Type) where
  | deny (errv : Int) (ret : α)
  | callOriginal
  | denyAfterOriginal (errv : Int) (ret : α)
deriving DecidableEq

namespace Hooks

/-
The interposed libc entry points (sandbox_fs.c lines 431-1193), modelled on
their decision-relevant arguments: flags, modes, output buffers and similar
arguments that the guards never consult are omitted, as are the forwarded
calls themselves.  Pointer-returning hooks use `Option Unit` with `none` for
the NULL failure value.
-/

def «open» (cfg : Config) (env : Env) (pathname : Option Path) : HookResult Int :=
  if is_path_blocked cfg env pathname then .deny EACCES (-1) else .callOriginal

def open64 (cfg : Config) (env : Env) (pathname : Option Path) : HookResult Int :=
  if is_path_blocked cfg env pathname then .deny EACCES (-1) else .callOriginal

def openat (cfg : Config) (env : Env) (dirfd : Int) (pathname : Option Path) : HookResult Int :=
  if is_path_blocked_at cfg env dirfd pathname then .deny EACCES (-1) else .callOriginal

def openat64 (cfg : Config) (env : Env) (dirfd : Int) (pathname : Option Path) : HookResult Int :=
  if is_path_blocked_at cfg env dirfd pathname then .deny EACCES (-1) else .callOriginal

def creat (cfg : Config) (env : Env) (pathname : Option Path) : HookResult Int :=
  if is_path_blocked cfg env pathname then .deny EACCES (-1) else .callOriginal

def creat64 (cfg : Config) (env : Env) (pathname : Option Path) : HookResult Int :=
  if is_path_blocked cfg env pathname then .deny EACCES (-1) else .callOriginal

def fopen (cfg : Config) (env : Env) (pathname : Option Path) : HookResult (Option Unit) :=
  if is_path_blocked cfg env pathname then .deny EACCES none else .callOriginal

def fopen64 (cfg : Config) (env : Env) (pathname : Option Path) : HookResult (Option Unit) :=
  if is_path_blocked cfg env pathname then .deny EACCES none else .callOriginal

def freopen (cfg : Config) (env : Env) (pathname : Option Path) : HookResult (Option Unit) :=
  match pathname with
  | some p => if is_path_blocked cfg env (some p) then .deny EACCES none else .callOriginal
  | none => .callOriginal

def freopen64 (cfg : Config) (env : Env) (pathname : Option Path) : HookResult (Option Unit) :=
  match pathname with
  | some p => if is_path_blocked cfg env (some p) then .deny EACCES none else .callOriginal
  | none => .callOriginal

def stat (cfg : Config) (env : Env) (pathname : Option Path) : HookResult Int :=
  if is_path_blocked cfg env pathname then .deny EACCES (-1) else .callOriginal

def stat64 (cfg : Config) (env : Env) (pathname : Option Path) : HookResult Int :=
  if is_path_blocked cfg env pathname then .deny EACCES (-1) else .callOriginal

def lstat (cfg : Config) (env : Env) (pathname : Option Path) : HookResult Int :=
  if is_path_blocked cfg env pathname then .deny EACCES (-1) else .callOriginal

def lstat64 (cfg : Config) (env : Env) (pathname : Option Path) : HookResult Int :=
  if is_path_blocked cfg env pathname then .deny EACCES (-1) else .callOriginal

def fstatat (cfg : Config) (env : Env) (dirfd : Int) (pathname : Option Path) : HookResult Int :=
  if is_path_blocked_at cfg env dirfd pathname then .deny EACCES (-1) else .callOriginal

def fstatat64 (cfg : Config) (env : Env) (dirfd : Int) (pathname : Option Path) : HookResult Int :=
  if is_path_blocked_at cfg env dirfd pathname then .deny EACCES (-1) else .callOriginal

def __xstat (cfg : Config) (env : Env) (pathname : Option Path) : HookResult Int :=
  if is_path_blocked cfg env pathname then .deny EACCES (-1) else .callOriginal

def __xstat64 (cfg : Config) (env : Env) (pathname : Option Path) : HookResult Int :=
  if is_path_blocked cfg env pathname then .deny EACCES (-1) else .callOriginal

def __lxstat (cfg : Config) (env : Env) (pathname : Option Path) : HookResult Int :=
  if is_path_blocked cfg env pathname then .deny EACCES (-1) else .callOriginal

def __lxstat64 (cfg : Config) (env : Env) (pathname : Option Path) : HookResult Int :=
  if is_path_blocked cfg env pathname then .deny EACCES (-1) else .callOriginal

def __fxstatat (cfg : Config) (env : Env) (dirfd : Int) (pathname : Option Path) : HookResult Int :=
  if is_path_blocked_at cfg env dirfd pathname then .deny EACCES (-1) else .callOriginal

def __fxstatat64 (cfg : Config) (env : Env) (dirfd : Int) (pathname : Option Path) : HookResult Int :=
  if is_path_blocked_at cfg env dirfd pathname then .deny EACCES (-1) else .callOriginal

def statx (cfg : Config) (env : Env) (dirfd : Int) (pathname : Option Path) : HookResult Int :=
  if is_path_blocked_at cfg env dirfd pathname then .deny EACCES (-1) else .callOriginal

def access (cfg : Config) (env : Env) (pathname : Option Path) : HookResult Int :=
  if is_path_blocked cfg env pathname then .deny EACCES (-1) else .callOriginal

def faccessat (cfg : Config) (env : Env) (dirfd : Int) (pathname : Option Path) : HookResult Int :=
  if is_path_blocked_at cfg env dirfd pathname then .deny EACCES (-1) else .callOriginal

def euidaccess (cfg : Config) (env : Env) (pathname : Option Path) : HookResult Int :=
  if is_path_blocked cfg env pathname then .deny EACCES (-1) else .callOriginal

def eaccess (cfg : Config) (env : Env) (pathname : Option Path) : HookResult Int :=
  if is_path_blocked cfg env pathname then .deny EACCES (-1) else .callOriginal

def opendir (cfg : Config) (env : Env) (name : Option Path) : HookResult (Option Unit) :=
  if is_path_blocked cfg env name then .deny EACCES none else .callOriginal

def chdir (cfg : Config) (env : Env) (path : Option Path) : HookResult Int :=
  if is_path_blocked cfg env path then .deny EACCES (-1) else .callOriginal

def mkdir (cfg : Config) (env : Env) (pathname : Option Path) : HookResult Int :=
  if is_path_blocked cfg env pathname then .deny EACCES (-1) else .callOriginal

def mkdirat (cfg : Config) (env : Env) (dirfd : Int) (pathname : Option Path) : HookResult Int :=
  if is_path_blocked_at cfg env dirfd pathname then .deny EACCES (-1) else .callOriginal

def rmdir (cfg : Config) (env : Env) (pathname : Option Path) : HookResult Int :=
  if is_path_blocked cfg env pathname then .deny EACCES (-1) else .callOriginal

def unlink (cfg : Config) (env : Env) (pathname : Option Path) : HookResult Int :=
  if is_path_blocked cfg env pathname then .deny EACCES (-1) else .callOriginal

def unlinkat (cfg : Config) (env : Env) (dirfd : Int) (pathname : Option Path) : HookResult Int :=
  if is_path_blocked_at cfg env dirfd pathname then .deny EACCES (-1) else .callOriginal

def rename (cfg : Config) (env : Env) (oldpath newpath : Option Path) : HookResult Int :=
  if is_path_blocked cfg env oldpath || is_path_blocked cfg env newpath then .deny EACCES (-1)
  else .callOriginal

def renameat (cfg : Config) (env : Env) (olddirfd : Int) (oldpath : Option Path) (newdirfd : Int) (newpath : Option Path) : HookResult Int :=
  if is_path_blocked_at cfg env olddirfd oldpath || is_path_blocked_at cfg env newdirfd newpath then .deny EACCES (-1)
  else .callOriginal

def renameat2 (cfg : Config) (env : Env) (olddirfd : Int) (oldpath : Option Path) (newdirfd : Int) (newpath : Option Path) : HookResult Int :=
  if is_path_blocked_at cfg env olddirfd oldpath || is_path_blocked_at cfg env newdirfd newpath then .deny EACCES (-1)
  else .callOriginal

def link (cfg : Config) (env : Env) (oldpath newpath : Option Path) : HookResult Int :=
  if is_path_blocked cfg env oldpath || is_path_blocked cfg env newpath then .deny EACCES (-1)
  else .callOriginal

def linkat (cfg : Config) (env : Env) (olddirfd : Int) (oldpath : Option Path) (newdirfd : Int) (newpath : Option Path) : HookResult Int :=
  if is_path_blocked_at cfg env olddirfd oldpath || is_path_blocked_at cfg env newdirfd newpath then .deny EACCES (-1)
  else .callOriginal

/-- symlink (lines 838-847); `linkpath` is taken non-null, as the source
dereferences it unconditionally once the target is relative. -/
def symlink (cfg : Config) (env : Env) (target : Option Path) (linkpath : Path) : HookResult Int :=
  if is_path_blocked cfg env (some linkpath) then .deny EACCES (-1)
  else if is_symlink_target_blocked cfg env target linkpath then .deny EACCES (-1)
  else .callOriginal

/-- symlinkat (lines 850-908): linkpath is checked descriptor-relative;
a relative target is then checked against the directory that will contain
the link, resolving `newdirfd` through /proc/self/fd with the original
readlink, failing closed when dlsym or the readlink fails (`len <= 0`). -/
def symlinkat (cfg : Config) (env : Env) (target : Option Path) (newdirfd : Int) (linkpath : Option Path) : HookResult Int :=
  if is_path_blocked_at cfg env newdirfd linkpath then .deny EACCES (-1)
  else
    match target with
    | none => .callOriginal
    | some t =>
      if t.head? = some '/' then
        if is_path_blocked cfg env (some t) then .deny EACCES (-1) else .callOriginal
      else
        let rest : HookResult Int :=
          if newdirfd = AT_FDCWD then
            match env.cwd, linkpath with
            | some cwd, some lp =>
              if cwd.length + 1 + lp.length < PATH_MAX then
                if is_symlink_target_blocked cfg env (some t) (cwd ++ '/' :: lp) then .deny EACCES (-1)
                else .callOriginal
              else .callOriginal
            | _, _ => .callOriginal
          else
            match env.readlinkSym with
            | none => .deny EACCES (-1)
            | some orig_readlink =>
              match orig_readlink (procFdPath newdirfd) with
              | none => .deny EACCES (-1)
              | some fd_path =>
                if fd_path = [] then .deny EACCES (-1)
                else
                  match linkpath with
                  | some lp =>
                    if fd_path.length + 1 + lp.length < PATH_MAX then
                      if is_symlink_target_blocked cfg env (some t) (fd_path ++ '/' :: lp) then .deny EACCES (-1)
                      else .callOriginal
                    else .callOriginal
                  | none => .callOriginal
        match linkpath with
        | some lp =>
          if lp.head? = some '/' then
            if lp.length < PATH_MAX then
              if is_symlink_target_blocked cfg env (some t) lp then .deny EACCES (-1)
              else .callOriginal
            else .callOriginal
          else rest
        | none => rest

def readlink (cfg : Config) (env : Env) (pathname : Option Path) : HookResult Int :=
  if is_path_blocked cfg env pathname then .deny EACCES (-1) else .callOriginal

def readlinkat (cfg : Config) (env : Env) (dirfd : Int) (pathname : Option Path) : HookResult Int :=
  if is_path_blocked_at cfg env dirfd pathname then .deny EACCES (-1) else .callOriginal

def chmod (cfg : Config) (env : Env) (pathname : Option Path) : HookResult Int :=
  if is_path_blocked cfg env pathname then .deny EACCES (-1) else .callOriginal

def fchmodat (cfg : Config) (env : Env) (dirfd : Int) (pathname : Option Path) : HookResult Int :=
  if is_path_blocked_at cfg env dirfd pathname then .deny EACCES (-1) else .callOriginal

def chown (cfg : Config) (env : Env) (pathname : Option Path) : HookResult Int :=
  if is_path_blocked cfg env pathname then .deny EACCES (-1) else .callOriginal

def lchown (cfg : Config) (env : Env) (pathname : Option Path) : HookResult Int :=
  if is_path_blocked cfg env pathname then .deny EACCES (-1) else .callOriginal

def fchownat (cfg : Config) (env : Env) (dirfd : Int) (pathname : Option Path) : HookResult Int :=
  if is_path_blocked_at cfg env dirfd pathname then .deny EACCES (-1) else .callOriginal

def truncate (cfg : Config) (env : Env) (path : Option Path) : HookResult Int :=
  if is_path_blocked cfg env path then .deny EACCES (-1) else .callOriginal

def truncate64 (cfg : Config) (env : Env) (path : Option Path) : HookResult Int :=
  if is_path_blocked cfg env path then .deny EACCES (-1) else .callOriginal

def getxattr (cfg : Config) (env : Env) (path : Option Path) : HookResult Int :=
  if is_path_blocked cfg env path then .deny EACCES (-1) else .callOriginal

def lgetxattr (cfg : Config) (env : Env) (path : Option Path) : HookResult Int :=
  if is_path_blocked cfg env path then .deny EACCES (-1) else .callOriginal

def setxattr (cfg : Config) (env : Env) (path : Option Path) : HookResult Int :=
  if is_path_blocked cfg env path then .deny EACCES (-1) else .callOriginal

def lsetxattr (cfg : Config) (env : Env) (path : Option Path) : HookResult Int :=
  if is_path_blocked cfg env path then .deny EACCES (-1) else .callOriginal

def removexattr (cfg : Config) (env : Env) (path : Option Path) : HookResult Int :=
  if is_path_blocked cfg env path then .deny EACCES (-1) else .callOriginal

def lremovexattr (cfg : Config) (env : Env) (path : Option Path) : HookResult Int :=
  if is_path_blocked cfg env path then .deny EACCES (-1) else .callOriginal

def listxattr (cfg : Config) (env : Env) (path : Option Path) : HookResult Int :=
  if is_path_blocked cfg env path then .deny EACCES (-1) else .callOriginal

def llistxattr (cfg : Config) (env : Env) (path : Option Path) : HookResult Int :=
  if is_path_blocked cfg env path then .deny EACCES (-1) else .callOriginal

/-- realpath (lines 1060-1076): the original resolver is invoked first and
its result, when any, is tested; a blocked result is suppressed with EACCES
and NULL.  `none` models the unchecked dlsym lookup failing, upon which the
source would call a null function pointer. -/
def realpath (cfg : Config) (env : Env) (path : Option Path) : Option (HookResult (Option Path)) :=
  match env.realpathSym with
  | none => none
  | some orig =>
    let result : Option Path := match path with | some p => orig p | none => none
    match result with
    | some r =>
      if is_path_blocked cfg env (some r) then some (.denyAfterOriginal EACCES none)
      else some .callOriginal
    | none => some .callOriginal

/-- canonicalize_file_name (lines 1079-1089): same result-checking shape as
the realpath hook. -/
def canonicalize_file_name (cfg : Config) (env : Env) (path : Option Path) : Option (HookResult (Option Path)) :=
  match env.canonicalizeSym with
  | none => none
  | some orig =>
    let result : Option Path := match path with | some p => orig p | none => none
    match result with
    | some r =>
      if is_path_blocked cfg env (some r) then some (.denyAfterOriginal EACCES none)
      else some .callOriginal
    | none => some .callOriginal

def execve (cfg : Config) (env : Env) (pathname : Option Path) : HookResult Int :=
  if is_path_blocked cfg env pathname then .deny EACCES (-1) else .callOriginal

def execveat (cfg : Config) (env : Env) (dirfd : Int) (pathname : Option Path) : HookResult Int :=
  if is_path_blocked_at cfg env dirfd pathname then .deny EACCES (-1) else .callOriginal

def nftw (cfg : Config) (env : Env) (dirpath : Option Path) : HookResult Int :=
  if is_path_blocked cfg env dirpath then .deny EACCES (-1) else .callOriginal

def ftw (cfg : Config) (env : Env) (dirpath : Option Path) : HookResult Int :=
  if is_path_blocked cfg env dirpath then .deny EACCES (-1) else .callOriginal

def utime (cfg : Config) (env : Env) (filename : Option Path) : HookResult Int :=
  if is_path_blocked cfg env filename then .deny EACCES (-1) else .callOriginal

def utimes (cfg : Config) (env : Env) (filename : Option Path) : HookResult Int :=
  if is_path_blocked cfg env filename then .deny EACCES (-1) else .callOriginal

def utimensat (cfg : Config) (env : Env) (dirfd : Int) (pathname : Option Path) : HookResult Int :=
  if is_path_blocked_at cfg env dirfd pathname then .deny EACCES (-1) else .callOriginal

def futimesat (cfg : Config) (env : Env) (dirfd : Int) (pathname : Option Path) : HookResult Int :=
  if is_path_blocked_at cfg env dirfd pathname then .deny EACCES (-1) else .callOriginal

def mknod (cfg : Config) (env : Env) (pathname : Option Path) : HookResult Int :=
  if is_path_blocked cfg env pathname then .deny EACCES (-1) else .callOriginal

def mknodat (cfg : Config) (env : Env) (dirfd : Int) (pathname : Option Path) : HookResult Int :=
  if is_path_blocked_at cfg env dirfd pathname then .deny EACCES (-1) else .callOriginal

def mkfifo (cfg : Config) (env : Env) (pathname : Option Path) : HookResult Int :=
  if is_path_blocked cfg env pathname then .deny EACCES (-1) else .callOriginal

def mkfifoat (cfg : Config) (env : Env) (dirfd : Int) (pathname : Option Path) : HookResult Int :=
  if is_path_blocked_at cfg env dirfd pathname then .deny EACCES (-1) else .callOriginal

end Hooks

/-! Concrete fixtures used by witnesses and counterexamples. -/

/-- Configuration with the single forbidden prefix "/app". -/
def cfgApp : Config := ⟨[("/app").toList], false⟩

/-- Environment in which every dlsym lookup fails and the cwd is "/work". -/
def envPlain : Env := ⟨none, none, none, some ("/work").toList⟩

/-- Allocation oracle in which every allocation succeeds. -/
def allocOK : Alloc := ⟨true, fun _ => true⟩

/-! Basic lemmas about the oracle. -/

theorem is_path_blocked_of_init_failed (cfg : Config) (env : Env) (p : Option Path)
    (h : cfg.init_failed = true) : is_path_blocked cfg env p = true := by
  simp [is_path_blocked, h]

/-- C2 (amended): when the fail-closed flag is set, the plain oracle returns
blocked for every input including a null path, and the descriptor-relative
oracle returns blocked for every non-null path and every descriptor; with a
null path the descriptor-relative oracle returns allowed, because its null
check precedes the fail-closed check. -/
theorem c2_fail_closed_amended :
    (∀ (cfg : Config) (env : Env) (p : Option Path), cfg.init_failed = true →
      is_path_blocked cfg env p = true) ∧
    (∀ (cfg : Config) (env : Env) (fd : Int) (p : Path), cfg.init_failed = true →
      is_path_blocked_at cfg env fd (some p) = true) ∧
    (∀ (cfg : Config) (env : Env) (fd : Int), is_path_blocked_at cfg env fd none = false) := by
  refine ⟨is_path_blocked_of_init_failed, ?_, fun cfg env fd => rfl⟩
  intro cfg env fd p h
  have hb : ∀ q, is_path_blocked cfg env q = true :=
    fun q => is_path_blocked_of_init_failed cfg env q h
  simp only [is_path_blocked_at, hb]
  cases env.readlinkSym with
  | none => simp
  | some rl =>
    rcases h' : rl (procFdPath fd) with _ | d <;> simp [h', hb]

/-- C2 witness: the amended theorem applied at a concrete fail-closed
configuration and concrete paths. -/
theorem c2_witness :
    is_path_blocked ⟨[("/app").toList], true⟩ envPlain (some ("/tmp/x").toList) = true ∧
    is_path_blocked_at ⟨[("/app").toList], true⟩ envPlain 7 (some ("x").toList) = true :=
  ⟨c2_fail_closed_amended.1 _ envPlain _ rfl,
   c2_fail_closed_amended.2.1 _ envPlain 7 _ rfl⟩

/-- C2 counterexample: with the fail-closed flag set, the descriptor-relative
oracle still returns allowed on a null path, refuting the claim that every
admission query, including a null path to is_path_blocked_at, is blocked. -/
theorem c2_counterexample :
    (⟨[], true⟩ : Config).init_failed = true ∧
    is_path_blocked_at ⟨[], true⟩ envPlain 5 none = false :=
  ⟨rfl, rfl⟩

theorem is_resolved_path_blocked_of_no_realpath (cfg : Config) (env : Env) (p : Path)
    (h : env.realpathSym = none) : is_resolved_path_blocked cfg env p = false := by
  simp [is_resolved_path_blocked, h]

/-- C3 (amended): when the dlsym lookup of the original readlink fails, a
descriptor-relative query on a relative path with a real descriptor returns
blocked; but when the dlsym lookup of the original realpath fails, the
symlink-aware resolver reports not-blocked (it falls back to the textual
check alone) rather than failing closed. -/
theorem c3_missing_symbol_amended :
    (∀ (cfg : Config) (env : Env) (p : Path), env.realpathSym = none →
      is_resolved_path_blocked cfg env p = false) ∧
    (∀ (cfg : Config) (env : Env) (fd : Int) (p : Path), env.readlinkSym = none →
      p.head? ≠ some '/' → fd ≠ AT_FDCWD →
      is_path_blocked_at cfg env fd (some p) = true) := by
  constructor
  · exact is_resolved_path_blocked_of_no_realpath
  · intro cfg env fd p h hrel hfd
    simp [is_path_blocked_at, h, hrel, hfd]

/-- C3 witness: the amended theorem applied at concrete inputs (envPlain has
both dlsym lookups failing). -/
theorem c3_witness :
    is_resolved_path_blocked cfgApp envPlain ("/x").toList = false ∧
    is_path_blocked_at cfgApp envPlain 7 (some ("rel").toList) = true :=
  ⟨c3_missing_symbol_amended.1 cfgApp envPlain _ rfl,
   c3_missing_symbol_amended.2 cfgApp envPlain 7 _ rfl (by decide) (by decide)⟩

/-- C3 counterexample: the realpath dlsym lookup fails in envPlain, yet the
query on "/tmp/x" returns allowed, refuting the claim that a failed
next-symbol lookup of the canonical-path resolver yields blocked. -/
theorem c3_counterexample :
    envPlain.realpathSym = none ∧
    is_path_blocked cfgApp envPlain (some ("/tmp/x").toList) = false :=
  ⟨rfl, by decide⟩

/-- Environment in which the original realpath resolves "/applications/foo"
to "/app/x" (modelling a symlink into the forbidden region) and fails on
every other path. -/
def envResolve : Env :=
  ⟨some (fun p => if p = ("/applications/foo").toList then some (("/app/x").toList) else none),
   none, none, some ("/work").toList⟩

/-- C1 (amended): a textual prefix match on the canonicalized candidate
always yields blocked; and when the fail-closed flag is unset and the
symlink-aware resolver is unavailable (its dlsym lookup fails, so it
contributes nothing), the oracle returns blocked exactly when some
forbidden prefix matches the canonicalized candidate — in general the
oracle may additionally block paths whose symlink resolution lands under a
prefix. -/
theorem c1_textual_match_amended :
    (∀ (cfg : Config) (env : Env) (C Q : Path), Q ∈ cfg.blocked_paths →
      pathMatch Q (candidateOf env C) = true →
      is_path_blocked cfg env (some C) = true) ∧
    (∀ (bl : List Path) (env : Env) (C : Path), env.realpathSym = none →
      (is_path_blocked ⟨bl, false⟩ env (some C) = true ↔
        ∃ Q ∈ bl, pathMatch Q (candidateOf env C) = true)) := by
  constructor
  · intro cfg env C Q hQ hm
    by_cases hf : cfg.init_failed = true
    · exact is_path_blocked_of_init_failed cfg env _ hf
    · have hne : cfg.blocked_paths ≠ [] := List.ne_nil_of_mem hQ
      have hany : anyBlocked cfg.blocked_paths (candidateOf env C) = true := by
        unfold anyBlocked
        exact List.any_eq_true.mpr ⟨Q, hQ, hm⟩
      simp [is_path_blocked, hf, hne, hany]
  · intro bl env C hrp
    by_cases hbl : bl = []
    · subst hbl
      simp [is_path_blocked]
    · have hres := is_resolved_path_blocked_of_no_realpath ⟨bl, false⟩ env (candidateOf env C) hrp
      cases hany : anyBlocked bl (candidateOf env C) with
      | true =>
        constructor
        · intro _
          have := List.any_eq_true.mp hany
          simpa [anyBlocked] using this
        · intro _
          simp [is_path_blocked, hbl, hany]
      | false =>
        constructor
        · intro hTrue
          exfalso
          simp [is_path_blocked, hbl, hany, hres] at hTrue
        · rintro ⟨Q, hQ, hm⟩
          have h2 : anyBlocked bl (candidateOf env C) = true := by
            unfold anyBlocked
            exact List.any_eq_true.mpr ⟨Q, hQ, hm⟩
          rw [hany] at h2
          exact absurd h2 (by simp)

/-- C1 witness: the amended equivalence applied with prefix list ["/app"]
and an unavailable resolver: "/tmp/../app/x" canonicalizes to "/app/x" and
is blocked, while "/applications/foo" is allowed. -/
theorem c1_witness :
    is_path_blocked ⟨[("/app").toList], false⟩ envPlain (some ("/tmp/../app/x").toList) = true ∧
    is_path_blocked ⟨[("/app").toList], false⟩ envPlain (some ("/applications/foo").toList) = false := by
  have h := c1_textual_match_amended.2 [("/app").toList] envPlain
  constructor
  · exact (h _ rfl).mpr ⟨("/app").toList, by decide, by decide⟩
  · have h3 : ¬(is_path_blocked ⟨[("/app").toList], false⟩ envPlain
        (some ("/applications/foo").toList) = true) :=
      fun hb => absurd ((h _ rfl).mp hb) (by decide)
    exact Bool.eq_false_iff.mpr h3

/-- C1 counterexample: in an environment where the original realpath maps
"/applications/foo" to "/app/x" (a symlink into the forbidden region), the
oracle blocks "/applications/foo" although no prefix textually matches its
canonicalized form — so the oracle is not equivalent to the textual match,
and "/applications/foo" is not always allowed as the claim states. -/
theorem c1_counterexample :
    is_path_blocked cfgApp envResolve (some ("/applications/foo").toList) = true ∧
    anyBlocked cfgApp.blocked_paths (candidateOf envResolve ("/applications/foo").toList) = false := by
  decide

theorem is_path_blocked_of_anyBlocked (cfg : Config) (env : Env) (p : Path)
    (hany : anyBlocked cfg.blocked_paths (candidateOf env p) = true) :
    is_path_blocked cfg env (some p) = true := by
  by_cases hf : cfg.init_failed = true
  · exact is_path_blocked_of_init_failed cfg env _ hf
  · obtain ⟨Q, hQ, _⟩ := List.any_eq_true.mp hany
    have hne : cfg.blocked_paths ≠ [] := List.ne_nil_of_mem hQ
    simp [is_path_blocked, hf, hne, hany]

theorem normalize_path_abs (env : Env) (p : Path) (h1 : p.head? = some '/')
    (h2 : ¬ PATH_MAX ≤ p.length) :
    normalize_path env p PATH_MAX =
      (if components (p.splitOn '/') = [] then some ['/']
       else rebuild PATH_MAX (components (p.splitOn '/')) []) := by
  simp [normalize_path, h1, h2, (by decide : ¬(PATH_MAX = 0))]

/-- Environment whose original readlink resolves every /proc/self/fd entry
to the directory "/dir". -/
def envFd : Env := ⟨none, some (fun _ => some (("/dir").toList)), none, some ("/work").toList⟩

/-- C5 (amended): case analysis of the descriptor-relative oracle — an
absolute pathname ignores the descriptor, AT_FDCWD reuses the plain oracle
on the relative pathname, an unresolvable descriptor (failed dlsym or
failed readlink of the /proc/self/fd entry) blocks, a resolved descriptor
runs the plain oracle on "directory/pathname" when the concatenation fits,
and blocks outright when the concatenation would overflow PATH_MAX. -/
theorem c5_descriptor_relative_amended :
    (∀ (cfg : Config) (env : Env) (fd : Int) (p : Path), p.head? = some '/' →
      is_path_blocked_at cfg env fd (some p) = is_path_blocked cfg env (some p)) ∧
    (∀ (cfg : Config) (env : Env) (p : Path),
      is_path_blocked_at cfg env AT_FDCWD (some p) = is_path_blocked cfg env (some p)) ∧
    (∀ (cfg : Config) (env : Env) (fd : Int) (p : Path), p.head? ≠ some '/' →
      fd ≠ AT_FDCWD → env.readlinkSym = none →
      is_path_blocked_at cfg env fd (some p) = true) ∧
    (∀ (cfg : Config) (env : Env) (fd : Int) (p : Path) (rl : Path → Option Path),
      p.head? ≠ some '/' → fd ≠ AT_FDCWD → env.readlinkSym = some rl →
      rl (procFdPath fd) = none →
      is_path_blocked_at cfg env fd (some p) = true) ∧
    (∀ (cfg : Config) (env : Env) (fd : Int) (p d : Path) (rl : Path → Option Path),
      p.head? ≠ some '/' → fd ≠ AT_FDCWD → env.readlinkSym = some rl →
      rl (procFdPath fd) = some d → d.length + 1 + p.length < PATH_MAX →
      is_path_blocked_at cfg env fd (some p) = is_path_blocked cfg env (some (d ++ '/' :: p))) ∧
    (∀ (cfg : Config) (env : Env) (fd : Int) (p d : Path) (rl : Path → Option Path),
      p.head? ≠ some '/' → fd ≠ AT_FDCWD → env.readlinkSym = some rl →
      rl (procFdPath fd) = some d → PATH_MAX ≤ d.length + 1 + p.length →
      is_path_blocked_at cfg env fd (some p) = true) := by
  refine ⟨?_, ?_, ?_, ?_, ?_, ?_⟩
  · intro cfg env fd p hh
    simp [is_path_blocked_at, hh]
  · intro cfg env p
    by_cases hh : p.head? = some '/' <;> simp [is_path_blocked_at, hh]
  · intro cfg env fd p hh hfd hsym
    simp [is_path_blocked_at, hh, hfd, hsym]
  · intro cfg env fd p rl hh hfd hsym hrl
    simp [is_path_blocked_at, hh, hfd, hsym, hrl]
  · intro cfg env fd p d rl hh hfd hsym hrl hfit
    simp [is_path_blocked_at, hh, hfd, hsym, hrl, Nat.not_le.mpr hfit]
  · intro cfg env fd p d rl hh hfd hsym hrl hover
    simp [is_path_blocked_at, hh, hfd, hsym, hrl, hover]

/-- C5 witness: with a descriptor resolving to "/dir", opening "../app/x"
relative to it is judged on "/dir/../app/x", which canonicalizes to
"/app/x" and is blocked. -/
theorem c5_witness :
    is_path_blocked_at cfgApp envFd 5 (some ("../app/x").toList) = true := by
  have h := c5_descriptor_relative_amended.2.2.2.2.1 cfgApp envFd 5
    (("../app/x").toList) (("/dir").toList) (fun _ => some (("/dir").toList))
    (by decide) (by decide) rfl rfl (by decide)
  rw [h]
  decide

/-- Configuration with an empty forbidden prefix list. -/
def cfgEmpty : Config := ⟨[], false⟩

/-- A directory path of length 4095, the longest a readlink of a
/proc/self/fd entry can deliver. -/
def dLong : Path := '/' :: List.replicate 4094 'a'

/-- Environment whose original readlink resolves every /proc/self/fd entry
to dLong. -/
def envLong : Env := ⟨none, some (fun _ => some dLong), none, some ("/work").toList⟩

/-- C5 counterexample: the descriptor resolves successfully to dLong, but
the concatenation "dLong/b" overflows PATH_MAX, so the query returns
blocked without running the plain oracle — which would have allowed the
concatenation (the prefix list is empty).  This refutes the claim that on
successful descriptor resolution the query is decided by the oracle on the
concatenation. -/
theorem c5_counterexample :
    is_path_blocked_at cfgEmpty envLong 5 (some ['b']) = true ∧
    is_path_blocked cfgEmpty envLong (some (dLong ++ '/' :: ['b'])) = false := by
  constructor
  · have hlen : dLong.length = 4095 := by
      unfold dLong
      rw [List.length_cons, List.length_replicate]
    simp [is_path_blocked_at, envLong, hlen, PATH_MAX, AT_FDCWD]
  · simp [is_path_blocked, cfgEmpty]

/-- C6: the symlink hook checks a relative target against the directory
that will contain the link — is_symlink_target_blocked on a relative
target equals the full oracle on "linkdir/target" (when nothing overflows),
a blocked target denies the symlink call with EACCES and -1 before the
original symlink runs, and concretely, with prefix "/app", creating
"/workspace/link3" with target "../app/x" is denied in every environment,
because "/workspace/../app/x" canonicalizes to "/app/x". -/
theorem c6_symlink_relative_target :
    (∀ (cfg : Config) (env : Env) (t lp par fn : Path),
      t.head? ≠ some '/' →
      splitLastSlash lp = some (par, fn) → par ≠ [] →
      lp.length < PATH_MAX → par.length + 1 + t.length < PATH_MAX →
      is_symlink_target_blocked cfg env (some t) lp =
        is_path_blocked cfg env (some (par ++ '/' :: t))) ∧
    (∀ (cfg : Config) (env : Env) (t : Option Path) (lp : Path),
      is_symlink_target_blocked cfg env t lp = true →
      Hooks.symlink cfg env t lp = .deny EACCES (-1)) ∧
    (∀ env : Env, Hooks.symlink cfgApp env (some ("../app/x").toList)
      (("/workspace/link3").toList) = .deny EACCES (-1)) := by
  have h1 : ∀ (cfg : Config) (env : Env) (t lp par fn : Path),
      t.head? ≠ some '/' →
      splitLastSlash lp = some (par, fn) → par ≠ [] →
      lp.length < PATH_MAX → par.length + 1 + t.length < PATH_MAX →
      is_symlink_target_blocked cfg env (some t) lp =
        is_path_blocked cfg env (some (par ++ '/' :: t)) := by
    intro cfg env t lp par fn ht hsplit hpar hlp hfit
    simp [is_symlink_target_blocked, ht, hsplit, hpar, Nat.not_le.mpr hlp, Nat.not_le.mpr hfit]
  have h2 : ∀ (cfg : Config) (env : Env) (t : Option Path) (lp : Path),
      is_symlink_target_blocked cfg env t lp = true →
      Hooks.symlink cfg env t lp = .deny EACCES (-1) := by
    intro cfg env t lp h
    simp [Hooks.symlink, h]
  refine ⟨h1, h2, ?_⟩
  intro env
  apply h2
  rw [h1 cfgApp env (("../app/x").toList) (("/workspace/link3").toList)
    (("/workspace").toList) (("link3").toList)
    (by decide) (by decide) (by decide) (by decide) (by decide)]
  rw [(by decide : ("/workspace").toList ++ '/' :: ("../app/x").toList = ("/workspace/../app/x").toList)]
  apply is_path_blocked_of_anyBlocked
  have hc : candidateOf env (("/workspace/../app/x").toList) = ("/app/x").toList := by
    unfold candidateOf
    rw [normalize_path_abs env _ (by decide) (by decide)]
    decide
  rw [hc]
  decide

/-- C6 witness: the theorem applied at the concrete configuration and the
all-failing environment. -/
theorem c6_witness :
    is_symlink_target_blocked cfgApp envPlain (some ("../app/x").toList)
      (("/workspace/link3").toList) =
      is_path_blocked cfgApp envPlain (some ("/workspace/../app/x").toList) ∧
    Hooks.symlink cfgApp envPlain (some ("../app/x").toList)
      (("/workspace/link3").toList) = .deny EACCES (-1) :=
  ⟨c6_symlink_relative_target.1 cfgApp envPlain (("../app/x").toList)
    (("/workspace/link3").toList) (("/workspace").toList) (("link3").toList)
    (by decide) (by decide) (by decide) (by decide) (by decide),
   c6_symlink_relative_target.2.2 envPlain⟩

/-! Idempotence of the textual canonicalizer (claim C8). -/

/-- A well-formed path component: what the component walk of normalize_path
can emit — nonempty, not a dot component, and slash-free. -/
def goodComp (t : Path) : Prop :=
  t ≠ [] ∧ t ≠ ['.'] ∧ t ≠ ['.', '.'] ∧ '/' ∉ t

theorem splitOn_slash_free : ∀ (l : Path), ∀ t ∈ l.splitOn '/', '/' ∉ t := by
  intro l
  induction l with
  | nil =>
    intro t ht
    simp [List.splitOn] at ht
    subst ht
    simp
  | cons c cs ih =>
    intro t ht
    simp only [List.splitOn] at ht ih
    rw [List.splitOnP_cons] at ht
    by_cases hc : c = '/'
    · rw [if_pos (by simp [hc])] at ht
      rcases List.mem_cons.mp ht with h1 | h1
      · subst h1; simp
      · exact ih t h1
    · rw [if_neg (by simp [hc])] at ht
      cases h' : cs.splitOnP (· == '/') with
      | nil => exact absurd h' (List.splitOnP_ne_nil _ cs)
      | cons hd tl =>
        rw [h'] at ht
        simp only [List.modifyHead] at ht
        rcases List.mem_cons.mp ht with h1 | h1
        · subst h1
          intro hin
          rcases List.mem_cons.mp hin with h2 | h2
          · exact hc h2.symm
          · exact ih hd (h' ▸ List.mem_cons_self hd tl) h2
        · exact ih t (h' ▸ List.mem_cons_of_mem hd h1)

theorem goodComp_foldl : ∀ (toks : List Path) (acc : List Path),
    (∀ t ∈ toks, '/' ∉ t) → (∀ t ∈ acc, goodComp t) →
    ∀ t ∈ toks.foldl stepComponent acc, goodComp t := by
  intro toks
  induction toks with
  | nil => intro acc _ hacc t ht; exact hacc t ht
  | cons tok toks ih =>
    intro acc htoks hacc t ht
    rw [List.foldl_cons] at ht
    refine ih (stepComponent acc tok) (fun u hu => htoks u (List.mem_cons_of_mem _ hu)) ?_ t ht
    intro u hu
    unfold stepComponent at hu
    by_cases h1 : tok = ['.']
    · rw [if_pos h1] at hu; exact hacc u hu
    · rw [if_neg h1] at hu
      by_cases h2 : tok = ['.', '.']
      · rw [if_pos h2] at hu
        exact hacc u (List.Sublist.subset (List.dropLast_sublist acc) hu)
      · rw [if_neg h2] at hu
        by_cases h3 : tok = []
        · rw [if_pos h3] at hu; exact hacc u hu
        · rw [if_neg h3] at hu
          rcases List.mem_append.mp hu with h4 | h4
          · exact hacc u h4
          · have : u = tok := by simpa using h4
            subst this
            exact ⟨h3, h1, h2, htoks u (List.mem_cons_self _ _)⟩

theorem componentsGood (l : Path) : ∀ t ∈ components (l.splitOn '/'), goodComp t :=
  goodComp_foldl (l.splitOn '/') [] (splitOn_slash_free l) (by simp)

theorem foldl_step_good : ∀ (ts : List Path) (acc : List Path),
    (∀ t ∈ ts, goodComp t) → ts.foldl stepComponent acc = acc ++ ts := by
  intro ts
  induction ts with
  | nil => intro acc _; simp
  | cons t ts ih =>
    intro acc hg
    obtain ⟨hne, hdot, hdots, _⟩ := hg t (List.mem_cons_self _ _)
    rw [List.foldl_cons]
    have hstep : stepComponent acc t = acc ++ [t] := by
      unfold stepComponent
      rw [if_neg hdot, if_neg hdots, if_neg hne]
    rw [hstep, ih (acc ++ [t]) (fun u hu => hg u (List.mem_cons_of_mem _ hu))]
    simp

/-- The string normalize_path rebuilds from a component list: each
component prefixed by '/', concatenated. -/
def flatJoin (cs : List Path) : Path :=
  (cs.map (fun c => '/' :: c)).flatten

theorem rebuild_eq : ∀ (cs : List Path) (size : Nat) (acc q : Path),
    rebuild size cs acc = some q →
    q = acc ++ flatJoin cs ∧ (cs = [] ∨ q.length < size) := by
  intro cs
  induction cs with
  | nil =>
    intro size acc q h
    have : acc = q := by simpa [rebuild] using h
    subst this
    simp [flatJoin]
  | cons c cs ih =>
    intro size acc q h
    unfold rebuild at h
    by_cases hle : size ≤ acc.length + 1 + c.length
    · rw [if_pos hle] at h; exact absurd h (by simp)
    · rw [if_neg hle] at h
      obtain ⟨hq, hrest⟩ := ih size (acc ++ '/' :: c) q h
      constructor
      · rw [hq]
        simp [flatJoin]
      · right
        rcases hrest with hnil | hlt
        · subst hnil
          have : q = acc ++ '/' :: c := by simpa [flatJoin] using hq
          rw [this]
          simp only [List.length_append, List.length_cons]
          omega
        · exact hlt

theorem splitOn_flatJoin : ∀ (cs : List Path), (∀ t ∈ cs, goodComp t) → cs ≠ [] →
    (flatJoin cs).splitOn '/' = [] :: cs := by
  intro cs
  induction cs with
  | nil => intro _ hne; exact absurd rfl hne
  | cons c rest ih =>
    intro hg _
    have hcfree : '/' ∉ c := (hg c (List.mem_cons_self _ _)).2.2.2
    have hsingle : ∀ x ∈ c, ¬((x == '/') = true) := by
      intro x hx hbeq
      exact hcfree (by simpa using (beq_iff_eq.mp hbeq) ▸ hx)
    cases rest with
    | nil =>
      show (flatJoin [c]).splitOnP (· == '/') = [[], c]
      have hfj : flatJoin [c] = '/' :: c := by simp [flatJoin]
      rw [hfj, List.splitOnP_cons, if_pos (by simp)]
      rw [List.splitOnP_eq_single _ _ hsingle]
    | cons c' rest' =>
      have ihr := ih (fun u hu => hg u (List.mem_cons_of_mem _ hu)) (by simp)
      have hfj2 : flatJoin (c' :: rest') = '/' :: (c' ++ flatJoin rest') := by
        simp [flatJoin]
      have hX : (c' ++ flatJoin rest').splitOnP (· == '/') = c' :: rest' := by
        have := ihr
        rw [hfj2] at this
        simp only [List.splitOn] at this
        rw [List.splitOnP_cons, if_pos (by simp)] at this
        exact (List.cons.injEq _ _ _ _).mp this |>.2
      show (flatJoin (c :: c' :: rest')).splitOnP (· == '/') = [] :: c :: c' :: rest'
      have hfj3 : flatJoin (c :: c' :: rest') = '/' :: (c ++ '/' :: (c' ++ flatJoin rest')) := by
        simp [flatJoin]
      rw [hfj3, List.splitOnP_cons, if_pos (by simp)]
      rw [List.splitOnP_first _ _ hsingle '/' (by simp), hX]

/-- Restatement of normalize_path at the PATH_MAX buffer size, with the
dead zero-size branch removed. -/
theorem normalize_path_eq (env : Env) (p : Path) :
    normalize_path env p PATH_MAX =
      match (if p.head? = some '/' then
               (if PATH_MAX ≤ p.length then none else some p)
             else match env.cwd with
               | none => none
               | some cwd =>
                 if PATH_MAX ≤ cwd.length + 1 + p.length then none
                 else some (cwd ++ '/' :: p)) with
      | none => none
      | some absolute =>
        if components (absolute.splitOn '/') = [] then some ['/']
        else rebuild PATH_MAX (components (absolute.splitOn '/')) [] := by
  unfold normalize_path
  rw [if_neg (by decide : ¬(PATH_MAX = 0))]

theorem normalize_core_idempotent (env : Env) (A q : Path)
    (h : (if components (A.splitOn '/') = [] then some ['/']
          else rebuild PATH_MAX (components (A.splitOn '/')) []) = some q) :
    normalize_path env q PATH_MAX = some q := by
  by_cases hc : components (A.splitOn '/') = []
  · rw [if_pos hc] at h
    obtain rfl : (['/'] : Path) = q := Option.some.inj h
    rw [normalize_path_abs env ['/'] (by decide) (by decide)]
    decide
  · rw [if_neg hc] at h
    have hgood : ∀ t ∈ components (A.splitOn '/'), goodComp t := componentsGood A
    obtain ⟨hq, hlen⟩ := rebuild_eq (components (A.splitOn '/')) PATH_MAX [] q h
    replace hq : q = flatJoin (components (A.splitOn '/')) := by simpa using hq
    have hlen' : q.length < PATH_MAX := hlen.resolve_left hc
    have hqhead : q.head? = some '/' := by
      rw [hq]
      cases hcc : components (A.splitOn '/') with
      | nil => exact absurd hcc hc
      | cons c cs => simp [flatJoin]
    rw [normalize_path_abs env q hqhead (Nat.not_le.mpr hlen')]
    have hsplit : q.splitOn '/' = [] :: components (A.splitOn '/') := by
      rw [hq]
      exact splitOn_flatJoin _ hgood hc
    rw [hsplit]
    have hcomp2 : components ([] :: components (A.splitOn '/')) = components (A.splitOn '/') := by
      show List.foldl stepComponent [] ([] :: components (A.splitOn '/')) = _
      rw [List.foldl_cons]
      have hstep : stepComponent [] [] = [] := rfl
      rw [hstep]
      have := foldl_step_good (components (A.splitOn '/')) [] hgood
      simpa using this
    rw [hcomp2, if_neg hc]
    exact h

/-- C8: textual canonicalization is idempotent — whenever normalize_path
succeeds, running it again on its output returns the output unchanged. -/
theorem c8_normalize_idempotent (env : Env) (p q : Path)
    (h : normalize_path env p PATH_MAX = some q) :
    normalize_path env q PATH_MAX = some q := by
  rw [normalize_path_eq] at h
  by_cases hh : p.head? = some '/'
  · rw [if_pos hh] at h
    by_cases hlen : PATH_MAX ≤ p.length
    · rw [if_pos hlen] at h
      exact absurd h (by simp)
    · rw [if_neg hlen] at h
      exact normalize_core_idempotent env p q h
  · rw [if_neg hh] at h
    cases hcwd : env.cwd with
    | none =>
      rw [hcwd] at h
      exact absurd h (by simp)
    | some cwd =>
      rw [hcwd] at h
      have h2 : (match (if PATH_MAX ≤ cwd.length + 1 + p.length then (none : Option Path)
                        else some (cwd ++ '/' :: p)) with
                 | none => (none : Option Path)
                 | some absolute =>
                   if components (absolute.splitOn '/') = [] then some ['/']
                   else rebuild PATH_MAX (components (absolute.splitOn '/')) []) = some q := h
      by_cases hlen : PATH_MAX ≤ cwd.length + 1 + p.length
      · rw [if_pos hlen] at h2
        exact absurd h2 (by simp)
      · rw [if_neg hlen] at h2
        exact normalize_core_idempotent env (cwd ++ '/' :: p) q h2

/-- C8 witness: the theorem applied to "/tmp/../app//./x", which
canonicalizes to "/app/x", a fixed point. -/
theorem c8_witness :
    normalize_path envPlain (("/tmp/../app//./x").toList) PATH_MAX = some (("/app/x").toList) ∧
    normalize_path envPlain (("/app/x").toList) PATH_MAX = some (("/app/x").toList) :=
  ⟨by decide, c8_normalize_idempotent envPlain (("/tmp/../app//./x").toList)
    (("/app/x").toList) (by decide)⟩

/-- C9: with the fail-closed flag unset, a null path is allowed, every query
is allowed while the forbidden prefix list is empty, and an empty
environment value yields an empty prefix list under which every input is
allowed. -/
theorem c9_empty_allow :
    (∀ (cfg : Config) (env : Env), cfg.init_failed = false →
      is_path_blocked cfg env none = false) ∧
    (∀ (cfg : Config) (env : Env) (p : Option Path), cfg.init_failed = false →
      cfg.blocked_paths = [] → is_path_blocked cfg env p = false) ∧
    (∀ (a : Alloc) (env : Env) (p : Option Path), a.paths_copy = true →
      (init_blocked_paths a (some [])).blocked_paths = [] ∧
      (init_blocked_paths a (some [])).init_failed = false ∧
      is_path_blocked (init_blocked_paths a (some [])) env p = false) := by
  have h1 : ∀ (cfg : Config) (env : Env), cfg.init_failed = false →
      is_path_blocked cfg env none = false := by
    intro cfg env h
    simp [is_path_blocked, h]
  have h2 : ∀ (cfg : Config) (env : Env) (p : Option Path), cfg.init_failed = false →
      cfg.blocked_paths = [] → is_path_blocked cfg env p = false := by
    intro cfg env p h hl
    cases p with
    | none => exact h1 cfg env h
    | some p => simp [is_path_blocked, h, hl]
  refine ⟨h1, h2, ?_⟩
  intro a env p ha
  have hinit : init_blocked_paths a (some []) = ⟨[], false⟩ := by
    simp [init_blocked_paths, ha]
    rfl
  rw [hinit]
  exact ⟨rfl, rfl, h2 _ env p rfl rfl⟩

/-! The interposition dispatch layer (claim C4). -/

/-- C4 (amended): for every interposed entry point whose guard consults the
admission oracle on its argument path(s), a blocked input is denied with
errno EACCES and the failure value of the hook's signature family (-1 for
integer- and size-returning hooks, NULL for pointer-returning hooks)
without invoking the original implementation — with two documented
exceptions: freopen forwards a null pathname even when the oracle would
report it blocked (its null check precedes the oracle), and the
canonical-path hooks (realpath, canonicalize_file_name) invoke the
original resolver first and then suppress a blocked result with EACCES and
NULL. -/
theorem c4_hook_dispatch_amended : ∀ (cfg : Config) (env : Env),
    (∀ p, is_path_blocked cfg env p = true → Hooks.«open» cfg env p = .deny EACCES (-1)) ∧
    (∀ p, is_path_blocked cfg env p = true → Hooks.open64 cfg env p = .deny EACCES (-1)) ∧
    (∀ fd p, is_path_blocked_at cfg env fd p = true → Hooks.openat cfg env fd p = .deny EACCES (-1)) ∧
    (∀ fd p, is_path_blocked_at cfg env fd p = true → Hooks.openat64 cfg env fd p = .deny EACCES (-1)) ∧
    (∀ p, is_path_blocked cfg env p = true → Hooks.creat cfg env p = .deny EACCES (-1)) ∧
    (∀ p, is_path_blocked cfg env p = true → Hooks.creat64 cfg env p = .deny EACCES (-1)) ∧
    (∀ p, is_path_blocked cfg env p = true → Hooks.fopen cfg env p = .deny EACCES none) ∧
    (∀ p, is_path_blocked cfg env p = true → Hooks.fopen64 cfg env p = .deny EACCES none) ∧
    (∀ p, is_path_blocked cfg env (some p) = true → Hooks.freopen cfg env (some p) = .deny EACCES none) ∧
    (Hooks.freopen cfg env none = .callOriginal) ∧
    (∀ p, is_path_blocked cfg env (some p) = true → Hooks.freopen64 cfg env (some p) = .deny EACCES none) ∧
    (Hooks.freopen64 cfg env none = .callOriginal) ∧
    (∀ p, is_path_blocked cfg env p = true → Hooks.stat cfg env p = .deny EACCES (-1)) ∧
    (∀ p, is_path_blocked cfg env p = true → Hooks.stat64 cfg env p = .deny EACCES (-1)) ∧
    (∀ p, is_path_blocked cfg env p = true → Hooks.lstat cfg env p = .deny EACCES (-1)) ∧
    (∀ p, is_path_blocked cfg env p = true → Hooks.lstat64 cfg env p = .deny EACCES (-1)) ∧
    (∀ fd p, is_path_blocked_at cfg env fd p = true → Hooks.fstatat cfg env fd p = .deny EACCES (-1)) ∧
    (∀ fd p, is_path_blocked_at cfg env fd p = true → Hooks.fstatat64 cfg env fd p = .deny EACCES (-1)) ∧
    (∀ p, is_path_blocked cfg env p = true → Hooks.__xstat cfg env p = .deny EACCES (-1)) ∧
    (∀ p, is_path_blocked cfg env p = true → Hooks.__xstat64 cfg env p = .deny EACCES (-1)) ∧
    (∀ p, is_path_blocked cfg env p = true → Hooks.__lxstat cfg env p = .deny EACCES (-1)) ∧
    (∀ p, is_path_blocked cfg env p = true → Hooks.__lxstat64 cfg env p = .deny EACCES (-1)) ∧
    (∀ fd p, is_path_blocked_at cfg env fd p = true → Hooks.__fxstatat cfg env fd p = .deny EACCES (-1)) ∧
    (∀ fd p, is_path_blocked_at cfg env fd p = true → Hooks.__fxstatat64 cfg env fd p = .deny EACCES (-1)) ∧
    (∀ fd p, is_path_blocked_at cfg env fd p = true → Hooks.statx cfg env fd p = .deny EACCES (-1)) ∧
    (∀ p, is_path_blocked cfg env p = true → Hooks.access cfg env p = .deny EACCES (-1)) ∧
    (∀ fd p, is_path_blocked_at cfg env fd p = true → Hooks.faccessat cfg env fd p = .deny EACCES (-1)) ∧
    (∀ p, is_path_blocked cfg env p = true → Hooks.euidaccess cfg env p = .deny EACCES (-1)) ∧
    (∀ p, is_path_blocked cfg env p = true → Hooks.eaccess cfg env p = .deny EACCES (-1)) ∧
    (∀ p, is_path_blocked cfg env p = true → Hooks.opendir cfg env p = .deny EACCES none) ∧
    (∀ p, is_path_blocked cfg env p = true → Hooks.chdir cfg env p = .deny EACCES (-1)) ∧
    (∀ p, is_path_blocked cfg env p = true → Hooks.mkdir cfg env p = .deny EACCES (-1)) ∧
    (∀ fd p, is_path_blocked_at cfg env fd p = true → Hooks.mkdirat cfg env fd p = .deny EACCES (-1)) ∧
    (∀ p, is_path_blocked cfg env p = true → Hooks.rmdir cfg env p = .deny EACCES (-1)) ∧
    (∀ p, is_path_blocked cfg env p = true → Hooks.unlink cfg env p = .deny EACCES (-1)) ∧
    (∀ fd p, is_path_blocked_at cfg env fd p = true → Hooks.unlinkat cfg env fd p = .deny EACCES (-1)) ∧
    (∀ o n, is_path_blocked cfg env o = true ∨ is_path_blocked cfg env n = true →
      Hooks.rename cfg env o n = .deny EACCES (-1)) ∧
    (∀ ofd o nfd n, is_path_blocked_at cfg env ofd o = true ∨ is_path_blocked_at cfg env nfd n = true →
      Hooks.renameat cfg env ofd o nfd n = .deny EACCES (-1)) ∧
    (∀ ofd o nfd n, is_path_blocked_at cfg env ofd o = true ∨ is_path_blocked_at cfg env nfd n = true →
      Hooks.renameat2 cfg env ofd o nfd n = .deny EACCES (-1)) ∧
    (∀ o n, is_path_blocked cfg env o = true ∨ is_path_blocked cfg env n = true →
      Hooks.link cfg env o n = .deny EACCES (-1)) ∧
    (∀ ofd o nfd n, is_path_blocked_at cfg env ofd o = true ∨ is_path_blocked_at cfg env nfd n = true →
      Hooks.linkat cfg env ofd o nfd n = .deny EACCES (-1)) ∧
    (∀ t lp, is_path_blocked cfg env (some lp) = true →
      Hooks.symlink cfg env t lp = .deny EACCES (-1)) ∧
    (∀ t fd lp, is_path_blocked_at cfg env fd lp = true →
      Hooks.symlinkat cfg env t fd lp = .deny EACCES (-1)) ∧
    (∀ p, is_path_blocked cfg env p = true → Hooks.readlink cfg env p = .deny EACCES (-1)) ∧
    (∀ fd p, is_path_blocked_at cfg env fd p = true → Hooks.readlinkat cfg env fd p = .deny EACCES (-1)) ∧
    (∀ p, is_path_blocked cfg env p = true → Hooks.chmod cfg env p = .deny EACCES (-1)) ∧
    (∀ fd p, is_path_blocked_at cfg env fd p = true → Hooks.fchmodat cfg env fd p = .deny EACCES (-1)) ∧
    (∀ p, is_path_blocked cfg env p = true → Hooks.chown cfg env p = .deny EACCES (-1)) ∧
    (∀ p, is_path_blocked cfg env p = true → Hooks.lchown cfg env p = .deny EACCES (-1)) ∧
    (∀ fd p, is_path_blocked_at cfg env fd p = true → Hooks.fchownat cfg env fd p = .deny EACCES (-1)) ∧
    (∀ p, is_path_blocked cfg env p = true → Hooks.truncate cfg env p = .deny EACCES (-1)) ∧
    (∀ p, is_path_blocked cfg env p = true → Hooks.truncate64 cfg env p = .deny EACCES (-1)) ∧
    (∀ p, is_path_blocked cfg env p = true → Hooks.getxattr cfg env p = .deny EACCES (-1)) ∧
    (∀ p, is_path_blocked cfg env p = true → Hooks.lgetxattr cfg env p = .deny EACCES (-1)) ∧
    (∀ p, is_path_blocked cfg env p = true → Hooks.setxattr cfg env p = .deny EACCES (-1)) ∧
    (∀ p, is_path_blocked cfg env p = true → Hooks.lsetxattr cfg env p = .deny EACCES (-1)) ∧
    (∀ p, is_path_blocked cfg env p = true → Hooks.removexattr cfg env p = .deny EACCES (-1)) ∧
    (∀ p, is_path_blocked cfg env p = true → Hooks.lremovexattr cfg env p = .deny EACCES (-1)) ∧
    (∀ p, is_path_blocked cfg env p = true → Hooks.listxattr cfg env p = .deny EACCES (-1)) ∧
    (∀ p, is_path_blocked cfg env p = true → Hooks.llistxattr cfg env p = .deny EACCES (-1)) ∧
    (∀ rp p r, env.realpathSym = some rp → rp p = some r →
      is_path_blocked cfg env (some r) = true →
      Hooks.realpath cfg env (some p) = some (.denyAfterOriginal EACCES none)) ∧
    (∀ cf p r, env.canonicalizeSym = some cf → cf p = some r →
      is_path_blocked cfg env (some r) = true →
      Hooks.canonicalize_file_name cfg env (some p) = some (.denyAfterOriginal EACCES none)) ∧
    (∀ p, is_path_blocked cfg env p = true → Hooks.execve cfg env p = .deny EACCES (-1)) ∧
    (∀ fd p, is_path_blocked_at cfg env fd p = true → Hooks.execveat cfg env fd p = .deny EACCES (-1)) ∧
    (∀ p, is_path_blocked cfg env p = true → Hooks.nftw cfg env p = .deny EACCES (-1)) ∧
    (∀ p, is_path_blocked cfg env p = true → Hooks.ftw cfg env p = .deny EACCES (-1)) ∧
    (∀ p, is_path_blocked cfg env p = true → Hooks.utime cfg env p = .deny EACCES (-1)) ∧
    (∀ p, is_path_blocked cfg env p = true → Hooks.utimes cfg env p = .deny EACCES (-1)) ∧
    (∀ fd p, is_path_blocked_at cfg env fd p = true → Hooks.utimensat cfg env fd p = .deny EACCES (-1)) ∧
    (∀ fd p, is_path_blocked_at cfg env fd p = true → Hooks.futimesat cfg env fd p = .deny EACCES (-1)) ∧
    (∀ p, is_path_blocked cfg env p = true → Hooks.mknod cfg env p = .deny EACCES (-1)) ∧
    (∀ fd p, is_path_blocked_at cfg env fd p = true → Hooks.mknodat cfg env fd p = .deny EACCES (-1)) ∧
    (∀ p, is_path_blocked cfg env p = true → Hooks.mkfifo cfg env p = .deny EACCES (-1)) ∧
    (∀ fd p, is_path_blocked_at cfg env fd p = true → Hooks.mkfifoat cfg env fd p = .deny EACCES (-1)) :=
  fun cfg env =>
  ⟨fun p h => by simp [Hooks.«open», h],
   fun p h => by simp [Hooks.open64, h],
   fun fd p h => by simp [Hooks.openat, h],
   fun fd p h => by simp [Hooks.openat64, h],
   fun p h => by simp [Hooks.creat, h],
   fun p h => by simp [Hooks.creat64, h],
   fun p h => by simp [Hooks.fopen, h],
   fun p h => by simp [Hooks.fopen64, h],
   fun p h => by simp [Hooks.freopen, h],
   rfl,
   fun p h => by simp [Hooks.freopen64, h],
   rfl,
   fun p h => by simp [Hooks.stat, h],
   fun p h => by simp [Hooks.stat64, h],
   fun p h => by simp [Hooks.lstat, h],
   fun p h => by simp [Hooks.lstat64, h],
   fun fd p h => by simp [Hooks.fstatat, h],
   fun fd p h => by simp [Hooks.fstatat64, h],
   fun p h => by simp [Hooks.__xstat, h],
   fun p h => by simp [Hooks.__xstat64, h],
   fun p h => by simp [Hooks.__lxstat, h],
   fun p h => by simp [Hooks.__lxstat64, h],
   fun fd p h => by simp [Hooks.__fxstatat, h],
   fun fd p h => by simp [Hooks.__fxstatat64, h],
   fun fd p h => by simp [Hooks.statx, h],
   fun p h => by simp [Hooks.access, h],
   fun fd p h => by simp [Hooks.faccessat, h],
   fun p h => by simp [Hooks.euidaccess, h],
   fun p h => by simp [Hooks.eaccess, h],
   fun p h => by simp [Hooks.opendir, h],
   fun p h => by simp [Hooks.chdir, h],
   fun p h => by simp [Hooks.mkdir, h],
   fun fd p h => by simp [Hooks.mkdirat, h],
   fun p h => by simp [Hooks.rmdir, h],
   fun p h => by simp [Hooks.unlink, h],
   fun fd p h => by simp [Hooks.unlinkat, h],
   fun o n h => by rcases h with h | h <;> simp [Hooks.rename, h],
   fun ofd o nfd n h => by rcases h with h | h <;> simp [Hooks.renameat, h],
   fun ofd o nfd n h => by rcases h with h | h <;> simp [Hooks.renameat2, h],
   fun o n h => by rcases h with h | h <;> simp [Hooks.link, h],
   fun ofd o nfd n h => by rcases h with h | h <;> simp [Hooks.linkat, h],
   fun t lp h => by simp [Hooks.symlink, h],
   fun t fd lp h => by simp [Hooks.symlinkat, h],
   fun p h => by simp [Hooks.readlink, h],
   fun fd p h => by simp [Hooks.readlinkat, h],
   fun p h => by simp [Hooks.chmod, h],
   fun fd p h => by simp [Hooks.fchmodat, h],
   fun p h => by simp [Hooks.chown, h],
   fun p h => by simp [Hooks.lchown, h],
   fun fd p h => by simp [Hooks.fchownat, h],
   fun p h => by simp [Hooks.truncate, h],
   fun p h => by simp [Hooks.truncate64, h],
   fun p h => by simp [Hooks.getxattr, h],
   fun p h => by simp [Hooks.lgetxattr, h],
   fun p h => by simp [Hooks.setxattr, h],
   fun p h => by simp [Hooks.lsetxattr, h],
   fun p h => by simp [Hooks.removexattr, h],
   fun p h => by simp [Hooks.lremovexattr, h],
   fun p h => by simp [Hooks.listxattr, h],
   fun p h => by simp [Hooks.llistxattr, h],
   fun rp p r h1 h2 h3 => by simp [Hooks.realpath, h1, h2, h3],
   fun cf p r h1 h2 h3 => by simp [Hooks.canonicalize_file_name, h1, h2, h3],
   fun p h => by simp [Hooks.execve, h],
   fun fd p h => by simp [Hooks.execveat, h],
   fun p h => by simp [Hooks.nftw, h],
   fun p h => by simp [Hooks.ftw, h],
   fun p h => by simp [Hooks.utime, h],
   fun p h => by simp [Hooks.utimes, h],
   fun fd p h => by simp [Hooks.utimensat, h],
   fun fd p h => by simp [Hooks.futimesat, h],
   fun p h => by simp [Hooks.mknod, h],
   fun fd p h => by simp [Hooks.mknodat, h],
   fun p h => by simp [Hooks.mkfifo, h],
   fun fd p h => by simp [Hooks.mkfifoat, h]⟩

/-- C4 witness: the amended theorem applied to the open hook at the blocked
path "/app/secret". -/
theorem c4_witness :
    Hooks.«open» cfgApp envPlain (some ("/app/secret").toList) = .deny EACCES (-1) :=
  (c4_hook_dispatch_amended cfgApp envPlain).1 _ (by decide)

/-- Environment whose original realpath and canonicalize_file_name resolve
every path to itself (every path exists and contains no symlink). -/
def envId : Env :=
  ⟨some (fun p => some p), none, some (fun p => some p), some ("/work").toList⟩

/-- C4 counterexample: "/app/x" is judged blocked by the oracle, yet the
realpath hook invokes the original resolver on it before denying — its
outcome is denyAfterOriginal, not a denial without invoking the original;
this refutes the claim that every hook denies a blocked input without
invoking the original implementation. -/
theorem c4_counterexample :
    is_path_blocked cfgApp envId (some ("/app/x").toList) = true ∧
    Hooks.realpath cfgApp envId (some ("/app/x").toList) =
      some (.denyAfterOriginal EACCES none) := by
  decide

/-! Invariants of configuration loading (claims C7 and C10). -/

theorem dropWhile_head_not (p : Char → Bool) :
    ∀ (l : Path) (a : Char) (as : Path), l.dropWhile p = a :: as → ¬ p a = true := by
  intro l
  induction l with
  | nil => intro a as h; simp at h
  | cons x xs ih =>
    intro a as h
    rw [List.dropWhile_cons] at h
    by_cases hx : p x = true
    · rw [if_pos hx] at h
      exact ih a as h
    · rw [if_neg hx] at h
      injection h with h1 _
      subst h1
      exact hx

theorem rtrim_getLast (c : Char) (l : Path) :
    rtrim c l = [] ∨ (rtrim c l).getLast? ≠ some c := by
  cases h : l.reverse.dropWhile (· = c) with
  | nil =>
    left
    simp only [rtrim, h, List.reverse_nil]
  | cons a as =>
    right
    have ha : ¬(a = c) := by
      have := dropWhile_head_not (· = c) l.reverse a as h
      simpa using this
    have heq : rtrim c l = (a :: as).reverse := by rw [rtrim, h]
    rw [heq, List.getLast?_reverse]
    simpa using ha

theorem trimToken_spec (t : Path)
    (hlast : (trimToken t).getLast? = some '/') : trimToken t = ['/'] := by
  have heq : trimToken t = (match t.dropWhile (· = ' ') with
      | [] => []
      | c :: rest => c :: rtrim '/' (rtrim ' ' rest)) := rfl
  cases hdw : t.dropWhile (· = ' ') with
  | nil =>
    rw [heq, hdw] at hlast
    simp at hlast
  | cons c rest =>
    rw [heq, hdw] at hlast ⊢
    have hlast' : (c :: rtrim '/' (rtrim ' ' rest)).getLast? = some '/' := hlast
    show c :: rtrim '/' (rtrim ' ' rest) = ['/']
    cases hr : rtrim '/' (rtrim ' ' rest) with
    | nil =>
      rw [hr] at hlast'
      simp only [List.getLast?_singleton, Option.some.injEq] at hlast'
      rw [hlast']
    | cons x xs =>
      exfalso
      rcases rtrim_getLast '/' (rtrim ' ' rest) with hnil | hlastne
      · rw [hr] at hnil
        simp at hnil
      · rw [hr] at hlast' hlastne
        rw [List.getLast?_cons_cons] at hlast'
        exact hlastne hlast'

theorem init_loop_mem (f : Nat → Bool) :
    ∀ (ts : List Path) (acc : List Path) (k : Nat) (p : Path),
      p ∈ init_loop f ts acc k →
      p ∈ acc ∨ (p ≠ [] ∧ ∃ t ∈ ts, p = trimToken t) := by
  intro ts
  induction ts with
  | nil => intro acc k p h; left; simpa [init_loop] using h
  | cons t ts ih =>
    intro acc k p h
    unfold init_loop at h
    by_cases hcap : acc.length < MAX_BLOCKED_PATHS
    · rw [if_pos hcap] at h
      by_cases htok : trimToken t = []
      · rw [if_pos htok] at h
        rcases ih acc k p h with h1 | ⟨h1, u, hu, h2⟩
        · exact Or.inl h1
        · exact Or.inr ⟨h1, u, List.mem_cons_of_mem _ hu, h2⟩
      · rw [if_neg htok] at h
        by_cases hall : f k = true
        · rw [if_pos hall] at h
          rcases ih (acc ++ [trimToken t]) (k + 1) p h with h1 | ⟨h1, u, hu, h2⟩
          · rcases List.mem_append.mp h1 with h2 | h2
            · exact Or.inl h2
            · have : p = trimToken t := by simpa using h2
              exact Or.inr ⟨this ▸ htok, t, List.mem_cons_self _ _, this⟩
          · exact Or.inr ⟨h1, u, List.mem_cons_of_mem _ hu, h2⟩
        · rw [if_neg hall] at h
          rcases ih acc (k + 1) p h with h1 | ⟨h1, u, hu, h2⟩
          · exact Or.inl h1
          · exact Or.inr ⟨h1, u, List.mem_cons_of_mem _ hu, h2⟩
    · rw [if_neg hcap] at h
      exact Or.inl h

theorem init_loop_length (f : Nat → Bool) :
    ∀ (ts : List Path) (acc : List Path) (k : Nat),
      acc.length ≤ MAX_BLOCKED_PATHS →
      (init_loop f ts acc k).length ≤ MAX_BLOCKED_PATHS := by
  intro ts
  induction ts with
  | nil => intro acc k h; simpa [init_loop] using h
  | cons t ts ih =>
    intro acc k h
    unfold init_loop
    by_cases hcap : acc.length < MAX_BLOCKED_PATHS
    · rw [if_pos hcap]
      by_cases htok : trimToken t = []
      · rw [if_pos htok]
        exact ih acc k h
      · rw [if_neg htok]
        by_cases hall : f k = true
        · rw [if_pos hall]
          refine ih (acc ++ [trimToken t]) (k + 1) ?_
          rw [List.length_append, List.length_singleton]
          omega
        · rw [if_neg hall]
          exact ih acc (k + 1) h
    · rw [if_neg hcap]
      exact h

theorem init_loop_sublist (f : Nat → Bool) :
    ∀ (ts : List Path) (acc : List Path) (k : Nat),
      (init_loop f ts acc k).Sublist
        (acc ++ (ts.map trimToken).filter (fun u => u != [])) := by
  intro ts
  induction ts with
  | nil => intro acc k; simp [init_loop]
  | cons t ts ih =>
    intro acc k
    unfold init_loop
    by_cases hcap : acc.length < MAX_BLOCKED_PATHS
    · rw [if_pos hcap]
      by_cases htok : trimToken t = []
      · rw [if_pos htok]
        have hfc : ((t :: ts).map trimToken).filter (fun u => u != []) =
            (ts.map trimToken).filter (fun u => u != []) := by
          rw [List.map_cons, List.filter_cons_of_neg]
          simp [htok]
        rw [hfc]
        exact ih acc k
      · rw [if_neg htok]
        have hfc : ((t :: ts).map trimToken).filter (fun u => u != []) =
            trimToken t :: (ts.map trimToken).filter (fun u => u != []) := by
          rw [List.map_cons, List.filter_cons_of_pos]
          simp [htok]
        rw [hfc]
        by_cases hall : f k = true
        · rw [if_pos hall]
          have := ih (acc ++ [trimToken t]) (k + 1)
          rw [List.append_assoc] at this
          simpa using this
        · rw [if_neg hall]
          refine (ih acc (k + 1)).trans ?_
          exact (List.sublist_cons_self _ _).append_left acc
    · rw [if_neg hcap]
      exact List.sublist_append_left acc _

/-- C7 (amended): after configuration loading with a successful working
copy, every stored prefix is nonempty, was obtained by trimming a token of
the colon-split environment value (so "/app/" stores as "/app"), ends in
'/' only when it is exactly the root "/", and at most 64 entries are held.
Absoluteness is not enforced: a non-absolute configured token is stored as
given. -/
theorem c7_prefix_storage_amended (a : Alloc) (v : Path) (ha : a.paths_copy = true) :
    (init_blocked_paths a (some v)).init_failed = false ∧
    (init_blocked_paths a (some v)).blocked_paths.length ≤ MAX_BLOCKED_PATHS ∧
    (∀ p ∈ (init_blocked_paths a (some v)).blocked_paths,
      p ≠ [] ∧ (p.getLast? = some '/' → p = ['/']) ∧
      ∃ t ∈ v.splitOn ':', p = trimToken t) := by
  have hinit : init_blocked_paths a (some v) =
      ⟨init_loop a.token (v.splitOn ':') [] 0, false⟩ := by
    simp [init_blocked_paths, ha]
  rw [hinit]
  refine ⟨rfl, init_loop_length a.token _ [] 0 (by simp [MAX_BLOCKED_PATHS]), ?_⟩
  intro p hp
  rcases init_loop_mem a.token _ [] 0 p hp with h1 | ⟨h1, t, ht, h2⟩
  · simp at h1
  · refine ⟨h1, fun hlast => ?_, t, ht, h2⟩
    rw [h2]
    exact trimToken_spec t (by rw [← h2]; exact hlast)

/-- C7 witness: the amended theorem applied to the value "/app/", which is
stored as "/app". -/
theorem c7_witness :
    (init_blocked_paths allocOK (some (("/app/").toList))).init_failed = false ∧
    (init_blocked_paths allocOK (some (("/app/").toList))).blocked_paths.length ≤
      MAX_BLOCKED_PATHS ∧
    (init_blocked_paths allocOK (some (("/app/").toList))).blocked_paths =
      [("/app").toList] :=
  ⟨(c7_prefix_storage_amended allocOK _ rfl).1,
   (c7_prefix_storage_amended allocOK _ rfl).2.1, by decide⟩

/-- C7 counterexample: the value "foo:/" stores the non-absolute prefix
"foo" and the prefix "/", which consists of a separator — refuting the
claim that every stored prefix is absolute and carries no trailing
separator. -/
theorem c7_counterexample :
    (init_blocked_paths allocOK (some (("foo:/").toList))).blocked_paths =
      [("foo").toList, ("/").toList] ∧
    (("foo").toList).head? ≠ some '/' ∧
    (("/").toList).getLast? = some '/' := by
  decide

/-- Allocation oracle whose second per-token strdup (index 1) fails. -/
def allocFail1 : Alloc := ⟨true, fun k => k != 1⟩

/-- C10 (amended): a failed per-token strdup silently omits that prefix and
does not set the fail-closed flag; the stored list is a subsequence of the
trimmed nonempty configured tokens; concretely, with value "/app:/secret"
and the strdup of "/secret" failing, only "/app" is stored and "/secret/x"
is allowed — but a path under an omitted prefix is allowed only when no
other stored prefix covers it. -/
theorem c10_alloc_skip_amended :
    (∀ (a : Alloc) (v : Path), a.paths_copy = true →
      (init_blocked_paths a (some v)).init_failed = false) ∧
    (∀ (a : Alloc) (v : Path),
      (init_blocked_paths a (some v)).blocked_paths.Sublist
        (((v.splitOn ':').map trimToken).filter (fun u => u != []))) ∧
    ((init_blocked_paths allocFail1 (some (("/app:/secret").toList))).blocked_paths =
       [("/app").toList] ∧
     is_path_blocked (init_blocked_paths allocFail1 (some (("/app:/secret").toList)))
       envPlain (some (("/secret/x").toList)) = false ∧
     (init_blocked_paths allocOK (some (("/app:/secret").toList))).blocked_paths =
       [("/app").toList, ("/secret").toList]) := by
  refine ⟨?_, ?_, by decide, by decide, by decide⟩
  · intro a v ha
    simp [init_blocked_paths, ha]
  · intro a v
    by_cases ha : a.paths_copy = true
    · have hinit : init_blocked_paths a (some v) =
          ⟨init_loop a.token (v.splitOn ':') [] 0, false⟩ := by
        simp [init_blocked_paths, ha]
      rw [hinit]
      simpa using init_loop_sublist a.token (v.splitOn ':') [] 0
    · have hinit : init_blocked_paths a (some v) = ⟨[], true⟩ := by
        simp [init_blocked_paths, ha]
      rw [hinit]
      exact List.nil_sublist _

/-- C10 witness: the amended theorem applied at the failing allocation
oracle and the value "/app:/secret". -/
theorem c10_witness :
    (init_blocked_paths allocFail1 (some (("/app:/secret").toList))).init_failed = false ∧
    (init_blocked_paths allocFail1 (some (("/app:/secret").toList))).blocked_paths.Sublist
      ((((("/app:/secret").toList).splitOn ':').map trimToken).filter (fun u => u != [])) :=
  ⟨c10_alloc_skip_amended.1 allocFail1 _ rfl, c10_alloc_skip_amended.2.1 allocFail1 _⟩

/-- C10 counterexample: with value "/app:/app/x" and the strdup of "/app/x"
failing, the stored list is ["/app"] — yet "/app/x/y", which lies under the
omitted prefix, is still blocked (by the surviving "/app"), refuting the
claim that paths under the omitted prefix are allowed. -/
theorem c10_counterexample :
    (init_blocked_paths allocFail1 (some (("/app:/app/x").toList))).blocked_paths =
      [("/app").toList] ∧
    is_path_blocked (init_blocked_paths allocFail1 (some (("/app:/app/x").toList)))
      envPlain (some (("/app/x/y").toList)) = true := by
  decide

/-- C9 witness: the theorem applied at the all-successful allocation oracle,
a concrete environment and the path "/app/x". -/
theorem c9_witness :
    (init_blocked_paths allocOK (some [])).blocked_paths = [] ∧
    (init_blocked_paths allocOK (some [])).init_failed = false ∧
    is_path_blocked (init_blocked_paths allocOK (some [])) envPlain
      (some ("/app/x").toList) = false :=
  c9_empty_allow.2.2 allocOK envPlain _ rfl

end SandboxFS
